import Mathlib

/-!
Verification of the core algorithms of the baseline-nudge-generator
repository, shallowly embedded in Lean 4.

The JavaScript source computes with IEEE doubles; the embedding uses exact
rationals, the real-number semantics of the same arithmetic.  All
definitions are translated from the source files `src/nudge-generator.js`,
`src/fontkit-parser.js` and the robust font-name extractor module.
-/

namespace BaselineNudge

/-- Font metrics record, as consumed by `calculateNudgeRem`
(`src/nudge-generator.js`, line 62): `ascent`, `descent`, `lineGap`,
`unitsPerEm`. -/
structure FontMetrics where
  ascent : ℚ
  descent : ℚ
  lineGap : ℚ
  unitsPerEm : ℚ
deriving DecidableEq, Repr

/- Lines 63-75 of `src/nudge-generator.js`: scale the metrics to rem,
compute the leading and the natural baseline offset. -/

def ascenderRem (m : FontMetrics) (fontSizeRem : ℚ) : ℚ :=
  m.ascent * fontSizeRem / m.unitsPerEm

def descenderRem (m : FontMetrics) (fontSizeRem : ℚ) : ℚ :=
  |m.descent| * fontSizeRem / m.unitsPerEm

def lineGapRem (m : FontMetrics) (fontSizeRem : ℚ) : ℚ :=
  m.lineGap * fontSizeRem / m.unitsPerEm

/-- Line 68: `effectiveAscenderRem + effectiveDescenderRem`, with the
effective ascender being `ascenderRem + lineGapRem`. -/
def contentAreaRem (m : FontMetrics) (fontSizeRem : ℚ) : ℚ :=
  (ascenderRem m fontSizeRem + lineGapRem m fontSizeRem) + descenderRem m fontSizeRem

/-- Line 70: `lineHeightAbsoluteRem - contentAreaRem` where
`lineHeightAbsoluteRem = lineHeightRem * baselineUnitRem` (line 69). -/
def leadingRem (m : FontMetrics) (fontSizeRem lineHeightRem baselineUnitRem : ℚ) : ℚ :=
  lineHeightRem * baselineUnitRem - contentAreaRem m fontSizeRem

/-- Line 75: `leadingRem / 2 + ascenderRem + (lineGapRem / 2)`. -/
def baselineOffsetRem (m : FontMetrics) (fontSizeRem lineHeightRem baselineUnitRem : ℚ) : ℚ :=
  leadingRem m fontSizeRem lineHeightRem baselineUnitRem / 2
    + ascenderRem m fontSizeRem + lineGapRem m fontSizeRem / 2

/-- Line 77: `nudgeRem = ceil(baselineOffsetRem / baselineUnitRem) * baselineUnitRem -
baselineOffsetRem` (the step-5 value of the spec). -/
def nudgeRem (m : FontMetrics) (fontSizeRem lineHeightRem baselineUnitRem : ℚ) : ℚ :=
  (⌈baselineOffsetRem m fontSizeRem lineHeightRem baselineUnitRem / baselineUnitRem⌉ : ℚ)
      * baselineUnitRem
    - baselineOffsetRem m fontSizeRem lineHeightRem baselineUnitRem

/-- Line 81: `const onePixelInRem = 1 / 16`. -/
def onePixelInRem : ℚ := 1 / 16

/-- Line 82: `const compensation = onePixelInRem * 1`. -/
def compensationConst : ℚ := onePixelInRem * 1

/-- Line 85: `const scaleFactor = Math.max(0, fontSizeRem - 1)`. -/
def scaleFactor (fontSizeRem : ℚ) : ℚ := max 0 (fontSizeRem - 1)

/-- Line 86: `const proportionalCompensation = (compensation / fontSizeRem) * scaleFactor`. -/
def proportionalCompensation (fontSizeRem : ℚ) : ℚ :=
  compensationConst / fontSizeRem * scaleFactor fontSizeRem

/-- Lines 90-93: compensation is applied only when `nudgeRem > 0`. -/
def compensatedNudgeRem (m : FontMetrics) (fontSizeRem lineHeightRem baselineUnitRem : ℚ) : ℚ :=
  if 0 < nudgeRem m fontSizeRem lineHeightRem baselineUnitRem then
    nudgeRem m fontSizeRem lineHeightRem baselineUnitRem - proportionalCompensation fontSizeRem
  else
    nudgeRem m fontSizeRem lineHeightRem baselineUnitRem

/-- Lines 96-98: a negative compensated nudge is moved to the next grid line. -/
def wrappedNudgeRem (m : FontMetrics) (fontSizeRem lineHeightRem baselineUnitRem : ℚ) : ℚ :=
  if compensatedNudgeRem m fontSizeRem lineHeightRem baselineUnitRem < 0 then
    compensatedNudgeRem m fontSizeRem lineHeightRem baselineUnitRem + baselineUnitRem
  else
    compensatedNudgeRem m fontSizeRem lineHeightRem baselineUnitRem

/-- JavaScript `Math.round`: round half toward positive infinity. -/
def jsRound (x : ℚ) : ℤ := ⌊x + 1 / 2⌋

/-- Line 100: `Math.round(compensatedNudgeRem * 100000) / 100000`. -/
def calculateNudgeRem (m : FontMetrics) (fontSizeRem lineHeightRem baselineUnitRem : ℚ) : ℚ :=
  (jsRound (wrappedNudgeRem m fontSizeRem lineHeightRem baselineUnitRem * 100000) : ℚ) / 100000

/-- Lines 57-60: the guard `if (!this.fontMetrics) throw ...`; the loaded
metrics are an `Option`, a missing value is the thrown error. -/
def calculateNudgeRemChecked (fontMetrics : Option FontMetrics)
    (fontSizeRem lineHeightRem baselineUnitRem : ℚ) : Except String ℚ :=
  match fontMetrics with
  | none => .error "Font metrics not loaded. Cannot calculate baseline nudges without font file."
  | some m => .ok (calculateNudgeRem m fontSizeRem lineHeightRem baselineUnitRem)

/-- Metrics in the style of the example font of the spec, used as concrete
test data. -/
def exampleMetrics : FontMetrics := ⟨1825, -443, 0, 2048⟩

/-- Metrics that drive the compensated nudge below zero on a tiny grid. -/
def tinyGridMetrics : FontMetrics := ⟨7 / 400, 0, 0, 1⟩

/-! Basic bounds on the intermediate values of `calculateNudgeRem`. -/

theorem nudgeRem_nonneg (m : FontMetrics) (f L b : ℚ) (hb : 0 < b) :
    0 ≤ nudgeRem m f L b := by
  unfold nudgeRem
  have h := Int.le_ceil (baselineOffsetRem m f L b / b)
  have h2 := mul_le_mul_of_nonneg_right h hb.le
  rw [div_mul_cancel₀ _ hb.ne'] at h2
  linarith

theorem nudgeRem_lt (m : FontMetrics) (f L b : ℚ) (hb : 0 < b) :
    nudgeRem m f L b < b := by
  unfold nudgeRem
  have h := Int.ceil_lt_add_one (baselineOffsetRem m f L b / b)
  have h2 := mul_lt_mul_of_pos_right h hb
  rw [add_mul, div_mul_cancel₀ _ hb.ne', one_mul] at h2
  linarith

theorem proportionalCompensation_nonneg (f : ℚ) (hf : 0 < f) :
    0 ≤ proportionalCompensation f := by
  unfold proportionalCompensation compensationConst onePixelInRem scaleFactor
  have h1 : (0:ℚ) ≤ 1 / 16 * 1 / f := by positivity
  exact mul_nonneg h1 (le_max_left 0 (f - 1))

theorem proportionalCompensation_le (f : ℚ) (hf : 0 < f) :
    proportionalCompensation f ≤ 1 / 16 := by
  unfold proportionalCompensation compensationConst onePixelInRem scaleFactor
  have hmax : max 0 (f - 1) ≤ f := max_le hf.le (by linarith)
  have hratio : max 0 (f - 1) / f ≤ 1 := (div_le_one hf).mpr hmax
  have := mul_le_mul_of_nonneg_left hratio (by norm_num : (0:ℚ) ≤ 1 / 16 * 1)
  calc 1 / 16 * 1 / f * max 0 (f - 1) = 1 / 16 * 1 * (max 0 (f - 1) / f) := by ring
    _ ≤ 1 / 16 * 1 * 1 := this
    _ = 1 / 16 := by norm_num

theorem wrappedNudgeRem_nonneg (m : FontMetrics) (f L b : ℚ)
    (hf : 0 < f) (hb : 0 < b) (h16 : 1 / 16 ≤ b) :
    0 ≤ wrappedNudgeRem m f L b := by
  have hn0 := nudgeRem_nonneg m f L b hb
  have hpc0 := proportionalCompensation_nonneg f hf
  have hpc1 := proportionalCompensation_le f hf
  unfold wrappedNudgeRem compensatedNudgeRem
  by_cases hpos : 0 < nudgeRem m f L b
  · rw [if_pos hpos]
    by_cases hneg : nudgeRem m f L b - proportionalCompensation f < 0
    · rw [if_pos hneg]; linarith
    · rw [if_neg hneg]; linarith
  · rw [if_neg hpos, if_neg (not_lt.mpr hn0)]; exact hn0

/-- C1 (amended).  For positive inputs the step-5 nudge always lies in
`[0, baselineUnitRem)`; the final rounded value is nonnegative provided the
baseline unit is at least the `1/16`-rem compensation bound (for a baseline
unit smaller than the compensation the final value can be negative, see the
counterexample). -/
theorem calculateNudgeRem_bounds (m : FontMetrics) (f L b : ℚ)
    (hu : 0 < m.unitsPerEm) (hf : 0 < f) (hL : 0 < L) (hb : 0 < b) :
    0 ≤ nudgeRem m f L b ∧ nudgeRem m f L b < b ∧
      (1 / 16 ≤ b → 0 ≤ calculateNudgeRem m f L b) := by
  refine ⟨nudgeRem_nonneg m f L b hb, nudgeRem_lt m f L b hb, fun h16 => ?_⟩
  have hw := wrappedNudgeRem_nonneg m f L b hf hb h16
  unfold calculateNudgeRem jsRound
  have hfloor : (0:ℤ) ≤ ⌊wrappedNudgeRem m f L b * 100000 + 1 / 2⌋ := by
    refine Int.le_floor.mpr ?_
    push_cast
    nlinarith
  refine div_nonneg ?_ (by norm_num)
  exact_mod_cast hfloor

/-- Witness for `calculateNudgeRem_bounds` at concrete inputs. -/
theorem calculateNudgeRem_bounds_witness :
    0 ≤ nudgeRem exampleMetrics 1 3 (1 / 2) ∧ nudgeRem exampleMetrics 1 3 (1 / 2) < 1 / 2 ∧
      (1 / 16 ≤ (1 / 2 : ℚ) → 0 ≤ calculateNudgeRem exampleMetrics 1 3 (1 / 2)) :=
  calculateNudgeRem_bounds exampleMetrics 1 3 (1 / 2)
    (by norm_num [exampleMetrics]) (by norm_num) (by norm_num) (by norm_num)

/-- C1 counterexample.  All preconditions of the claim hold
(`unitsPerEm = 1 > 0`, font size `3`, line height `2`, baseline unit
`1/32`, all positive), yet the value returned by `calculateNudgeRem`
is negative: the step-5 nudge is `1/200`, the compensation `1/24`
exceeds it as well as the baseline unit, so even after the single wrap
the result stays below zero. -/
theorem calculateNudgeRem_negative_counterexample :
    0 < tinyGridMetrics.unitsPerEm ∧
      calculateNudgeRem tinyGridMetrics 3 2 (1 / 32) < 0 := by
  refine ⟨by norm_num [tinyGridMetrics], ?_⟩
  have hoff : baselineOffsetRem tinyGridMetrics 3 2 (1 / 32) = 23 / 400 := by
    simp only [baselineOffsetRem, leadingRem, contentAreaRem, ascenderRem, descenderRem,
      lineGapRem, tinyGridMetrics]
    norm_num
  have hceil : (⌈baselineOffsetRem tinyGridMetrics 3 2 (1 / 32) / (1 / 32)⌉ : ℤ) = 2 := by
    rw [hoff, show (23 / 400 : ℚ) / (1 / 32) = 46 / 25 by norm_num, Int.ceil_eq_iff] <;>
      norm_num
  have hnud : nudgeRem tinyGridMetrics 3 2 (1 / 32) = 1 / 200 := by
    unfold nudgeRem
    rw [hceil, hoff]
    norm_num
  have hpc : proportionalCompensation 3 = 1 / 24 := by
    unfold proportionalCompensation compensationConst onePixelInRem scaleFactor
    rw [show max (0:ℚ) (3 - 1) = 2 by norm_num [max_def]]
    norm_num
  have hcomp : compensatedNudgeRem tinyGridMetrics 3 2 (1 / 32) = -(11 / 300) := by
    unfold compensatedNudgeRem
    rw [hnud, hpc, if_pos (by norm_num : (0:ℚ) < 1 / 200)]
    norm_num
  have hwrap : wrappedNudgeRem tinyGridMetrics 3 2 (1 / 32) = -(13 / 2400) := by
    unfold wrappedNudgeRem
    rw [hcomp, if_pos (by norm_num : -(11 / 300 : ℚ) < 0)]
    norm_num
  have hfloor : jsRound (wrappedNudgeRem tinyGridMetrics 3 2 (1 / 32) * 100000) = -542 := by
    unfold jsRound
    rw [hwrap, show -(13 / 2400 : ℚ) * 100000 + 1 / 2 = -(3247 / 6 : ℚ) by norm_num,
      Int.floor_eq_iff] <;> norm_num
  unfold calculateNudgeRem
  rw [hfloor]
  norm_num

/-- C9.  For positive inputs, the compensated (and wrapped) nudge that is
fed to the final 5-decimal rounding is strictly below one baseline unit. -/
theorem wrappedNudgeRem_lt_baselineUnit (m : FontMetrics) (f L b : ℚ)
    (hu : 0 < m.unitsPerEm) (hf : 0 < f) (hL : 0 < L) (hb : 0 < b) :
    wrappedNudgeRem m f L b < b := by
  have hn0 := nudgeRem_nonneg m f L b hb
  have hnlt := nudgeRem_lt m f L b hb
  have hpc0 := proportionalCompensation_nonneg f hf
  unfold wrappedNudgeRem compensatedNudgeRem
  by_cases hpos : 0 < nudgeRem m f L b
  · rw [if_pos hpos]
    by_cases hneg : nudgeRem m f L b - proportionalCompensation f < 0
    · rw [if_pos hneg]; linarith
    · rw [if_neg hneg]; linarith
  · rw [if_neg hpos, if_neg (not_lt.mpr hn0)]; exact hnlt

/-- Witness for `wrappedNudgeRem_lt_baselineUnit` at concrete inputs. -/
theorem wrappedNudgeRem_lt_baselineUnit_witness :
    wrappedNudgeRem exampleMetrics 1 3 (1 / 2) < 1 / 2 :=
  wrappedNudgeRem_lt_baselineUnit exampleMetrics 1 3 (1 / 2)
    (by norm_num [exampleMetrics]) (by norm_num) (by norm_num) (by norm_num)

/-- C4.  Drift compensation is applied exactly when the step-5 nudge is
positive, subtracting exactly `(1/16) / fontSizeRem * max 0 (fontSizeRem - 1)`;
at `fontSizeRem = 1` the compensation vanishes and the returned value is the
rounded step-5 nudge. -/
theorem compensation_shape (m : FontMetrics) (f L b : ℚ) (hb : 0 < b) :
    (0 < nudgeRem m f L b →
      compensatedNudgeRem m f L b = nudgeRem m f L b - 1 / 16 / f * max 0 (f - 1)) ∧
    (nudgeRem m f L b ≤ 0 → compensatedNudgeRem m f L b = nudgeRem m f L b) ∧
    (f = 1 →
      calculateNudgeRem m f L b = (jsRound (nudgeRem m f L b * 100000) : ℚ) / 100000) := by
  refine ⟨fun hpos => ?_, fun hnp => ?_, fun hf1 => ?_⟩
  · unfold compensatedNudgeRem proportionalCompensation compensationConst onePixelInRem
      scaleFactor
    rw [if_pos hpos]
    ring_nf
  · unfold compensatedNudgeRem
    rw [if_neg (not_lt.mpr hnp)]
  · subst hf1
    have hpc : proportionalCompensation 1 = 0 := by
      unfold proportionalCompensation compensationConst onePixelInRem scaleFactor
      norm_num
    have hcomp : compensatedNudgeRem m 1 L b = nudgeRem m 1 L b := by
      unfold compensatedNudgeRem
      by_cases hpos : 0 < nudgeRem m 1 L b
      · rw [if_pos hpos, hpc, sub_zero]
      · rw [if_neg hpos]
    have hwrap : wrappedNudgeRem m 1 L b = nudgeRem m 1 L b := by
      unfold wrappedNudgeRem
      rw [hcomp, if_neg (not_lt.mpr (nudgeRem_nonneg m 1 L b hb))]
    unfold calculateNudgeRem
    rw [hwrap]

/-- Witness for `compensation_shape`: at 1 rem the result is the rounded
step-5 nudge. -/
theorem compensation_shape_witness :
    calculateNudgeRem exampleMetrics 1 3 (1 / 2)
      = (jsRound (nudgeRem exampleMetrics 1 3 (1 / 2) * 100000) : ℚ) / 100000 :=
  (compensation_shape exampleMetrics 1 3 (1 / 2) (by norm_num)).2.2 rfl

/-- C6.  The checked calculation fails exactly when no font metrics are
loaded, and with metrics present it returns the computed number. -/
theorem calculateNudgeRemChecked_error_iff (fm : Option FontMetrics) (f L b : ℚ) :
    ((∃ msg, calculateNudgeRemChecked fm f L b = .error msg) ↔ fm = none) ∧
    (∀ m, fm = some m →
      calculateNudgeRemChecked fm f L b = .ok (calculateNudgeRem m f L b)) := by
  cases fm <;> simp [calculateNudgeRemChecked]

/-- Witness for `calculateNudgeRemChecked_error_iff` at concrete metrics. -/
theorem calculateNudgeRemChecked_error_iff_witness :
    calculateNudgeRemChecked (some exampleMetrics) 1 3 (1 / 2)
      = .ok (calculateNudgeRem exampleMetrics 1 3 (1 / 2)) :=
  (calculateNudgeRemChecked_error_iff (some exampleMetrics) 1 3 (1 / 2)).2
    exampleMetrics rfl

/-!
Element token assembly: the multi-font branch of `generateTokens`
(`src/nudge-generator.js`, lines 128-177) together with `cleanClassname`
(lines 104-109).  JavaScript objects are modelled as association lists in
insertion order; assigning to an existing key replaces its value in place,
assigning a fresh key appends.  The `x || default` idiom of the source is
modelled by `jsOrStr` / `jsOrNum` (absent and falsy values both take the
default).  The `rem`-string formatting of the emitted record is abstracted
to its numeric payload.
-/

/-- One entry of the configuration `elements` array (optional fields are
absent or possibly-falsy JavaScript values). -/
structure Element where
  identifier : Option String
  classname : Option String
  tag : Option String
  fontSize : ℚ
  lineHeight : ℚ
  spaceAfter : Option ℚ
  fontFamily : Option String
  fontWeight : Option ℚ
  fontStyle : Option String

/-- JavaScript `s || d` for an optional string: absent and empty both fall
back to the default. -/
def jsOrStr (v : Option String) (d : String) : String :=
  match v with
  | none => d
  | some s => if s = "" then d else s

/-- JavaScript `x || d` for an optional number: absent and zero both fall
back to the default. -/
def jsOrNum (v : Option ℚ) (d : ℚ) : ℚ :=
  match v with
  | none => d
  | some x => if x = 0 then d else x

/-- Characters kept verbatim by `cleanClassname`: the class `[a-zA-Z0-9_-]`. -/
def isCssNameChar (c : Char) : Bool :=
  (97 ≤ c.toNat && c.toNat ≤ 122) || (65 ≤ c.toNat && c.toNat ≤ 90) ||
    (48 ≤ c.toNat && c.toNat ≤ 57) || c = '_' || c = '-'

/-- Lines 104-109: `cleanClassname` returns "unknown" for a missing,
non-string or empty argument, strips one leading dot
(`replace(/^\./, '')`) and replaces every character outside
`[a-zA-Z0-9_-]` with an underscore.  A missing or non-string JavaScript
argument is modelled as `none`. -/
def cleanClassname : Option String → String
  | none => "unknown"
  | some s =>
    if s = "" then "unknown"
    else
      let l := match s.data with
        | '.' :: rest => rest
        | l => l
      String.mk (l.map fun c => if isCssNameChar c then c else '_')

/-- Property read on a JavaScript object modelled as an association list
(object keys are unique, so the first match is the match). -/
def objGet {α : Type} : List (String × α) → String → Option α
  | [], _ => none
  | p :: t, k => if p.1 = k then some p.2 else objGet t k

/-- Property assignment on a JavaScript object: replace in place if the key
exists, append otherwise. -/
def objSet {α : Type} : List (String × α) → String → α → List (String × α)
  | [], k, v => [(k, v)]
  | p :: t, k, v => if p.1 = k then (k, v) :: t else p :: objSet t k v

/-- Line 148: `fontFamily || 'sans'`. -/
def effFontFamily (e : Element) : String := jsOrStr e.fontFamily "sans"

/-- Line 163: `identifier || classname || tag || 'element'`. -/
def elementName (e : Element) : String :=
  jsOrStr e.identifier (jsOrStr e.classname (jsOrStr e.tag "element"))

/-- Line 164: the key under which the element record is stored. -/
def elementKey (e : Element) : String := cleanClassname (some (elementName e))

/-- The payload of one emitted element record (lines 166-174), with the
`rem` string formatting abstracted away. -/
structure TokenRecord where
  fontSizeRem : ℚ
  lineHeightAbsRem : ℚ
  fontFamily : String
  fontWeight : ℚ
  fontStyle : String
  spaceAfterRem : ℚ
  nudgeTopRem : ℚ

/-- Lines 149-173: defaults, nudge computation and record assembly for a
single element against its resolved metrics. -/
def mkTokenRecord (baselineUnit : ℚ) (fm : FontMetrics) (e : Element) : TokenRecord where
  fontSizeRem := e.fontSize
  lineHeightAbsRem := e.lineHeight * baselineUnit
  fontFamily := effFontFamily e
  fontWeight := jsOrNum e.fontWeight 400
  fontStyle := jsOrStr e.fontStyle "normal"
  spaceAfterRem := jsOrNum e.spaceAfter 4 * baselineUnit
  nudgeTopRem := calculateNudgeRem fm e.fontSize e.lineHeight baselineUnit

/-- The error text of line 154. -/
def unknownFamilyMsg (fam : String) (available : List String) : String :=
  "Font family \"" ++ fam ++ "\" not found in fontMetricsMap. Available: "
    ++ String.intercalate ", " available

/-- The element loop of lines 142-175: walk the configured elements,
resolving each family in the metrics map and assembling the output object;
an unresolved family aborts with the `UnknownFontFamily` error. -/
def genElements (baselineUnit : ℚ) (fmap : List (String × FontMetrics)) :
    List Element → List (String × TokenRecord) → Except String (List (String × TokenRecord))
  | [], acc => .ok acc
  | e :: rest, acc =>
    match objGet fmap (effFontFamily e) with
    | none => .error (unknownFamilyMsg (effFontFamily e) (fmap.map Prod.fst))
    | some fm => genElements baselineUnit fmap rest (objSet acc (elementKey e) (mkTokenRecord baselineUnit fm e))

/-- The multi-font branch of `generateTokens` restricted to its `elements`
object (the only algorithmic part). -/
def generateTokensElements (baselineUnit : ℚ) (elems : List Element)
    (fmap : List (String × FontMetrics)) : Except String (List (String × TokenRecord)) :=
  genElements baselineUnit fmap elems []

theorem objGet_objSet_self {α : Type} (l : List (String × α)) (k : String) (v : α) :
    objGet (objSet l k v) k = some v := by
  induction l with
  | nil => simp [objGet, objSet]
  | cons p t ih =>
    by_cases h : p.1 = k
    · simp [objGet, objSet, h]
    · simp [objGet, objSet, h, ih]

theorem objGet_objSet_ne {α : Type} (l : List (String × α)) (k k' : String) (v : α)
    (hne : k' ≠ k) :
    objGet (objSet l k v) k' = objGet l k' := by
  induction l with
  | nil => simp [objGet, objSet, Ne.symm hne]
  | cons p t ih =>
    by_cases h : p.1 = k
    · simp [objGet, objSet, h, Ne.symm hne]
    · by_cases h2 : p.1 = k'
      · simp [objGet, objSet, h, h2, hne]
      · simp [objGet, objSet, h, h2, ih]

theorem objGet_objSet_isSome {α : Type} (l : List (String × α)) (k k' : String) (v : α)
    (h : (objGet l k').isSome) : (objGet (objSet l k v) k').isSome := by
  by_cases hkk : k' = k
  · subst hkk; rw [objGet_objSet_self]; rfl
  · rw [objGet_objSet_ne l k k' v hkk]; exact h

theorem genElements_ok_iff (b : ℚ) (fmap : List (String × FontMetrics)) :
    ∀ (elems : List Element) (acc : List (String × TokenRecord)),
      (∃ out, genElements b fmap elems acc = .ok out)
        ↔ ∀ e ∈ elems, (objGet fmap (effFontFamily e)).isSome := by
  intro elems
  induction elems with
  | nil => intro acc; simp [genElements]
  | cons e rest ih =>
    intro acc
    cases hm : objGet fmap (effFontFamily e) with
    | none => simp [genElements, hm]
    | some fm => simp [genElements, hm, ih]

theorem genElements_ok_keys (b : ℚ) (fmap : List (String × FontMetrics)) :
    ∀ (elems : List Element) (acc out : List (String × TokenRecord)),
      genElements b fmap elems acc = .ok out →
      (∀ k, (objGet acc k).isSome → (objGet out k).isSome) ∧
        (∀ e ∈ elems, (objGet out (elementKey e)).isSome) := by
  intro elems
  induction elems with
  | nil =>
    intro acc out h
    obtain rfl : acc = out := by
      simpa [genElements] using h
    exact ⟨fun k hk => hk, by simp⟩
  | cons e rest ih =>
    intro acc out h
    simp only [genElements] at h
    cases hm : objGet fmap (effFontFamily e) with
    | none => rw [hm] at h; cases h
    | some fm =>
      rw [hm] at h
      obtain ⟨hmono, hall⟩ := ih (objSet acc (elementKey e) (mkTokenRecord b fm e)) out h
      refine ⟨fun k hk => hmono k (objGet_objSet_isSome _ _ _ _ hk), ?_⟩
      intro e' he'
      rcases List.mem_cons.mp he' with rfl | hmem
      · refine hmono _ ?_
        rw [objGet_objSet_self]; rfl
      · exact hall e' hmem

theorem genElements_error_shape (b : ℚ) (fmap : List (String × FontMetrics)) :
    ∀ (elems : List Element) (acc : List (String × TokenRecord)) (msg : String),
      genElements b fmap elems acc = .error msg →
      ∃ fam, objGet fmap fam = none ∧ msg = unknownFamilyMsg fam (fmap.map Prod.fst) := by
  intro elems
  induction elems with
  | nil => intro acc msg h; simp [genElements] at h
  | cons e rest ih =>
    intro acc msg h
    simp only [genElements] at h
    cases hm : objGet fmap (effFontFamily e) with
    | none =>
      rw [hm] at h
      obtain rfl : unknownFamilyMsg (effFontFamily e) (fmap.map Prod.fst) = msg := by
        simpa using h
      exact ⟨effFontFamily e, hm, rfl⟩
    | some fm =>
      rw [hm] at h
      exact ih _ _ h

/-- C7.  In the multi-font path, the element loop succeeds exactly when
every element's effective family (defaulting to "sans") resolves in the
metrics map; on success each element contributes a record under its
cleaned key, on failure the error carries the offending family and the
list of available families; the defaults are 400 for `fontWeight`,
"normal" for `fontStyle` and 4 baseline units for `spaceAfter`. -/
theorem generateTokens_unknown_family (b : ℚ) (elems : List Element)
    (fmap : List (String × FontMetrics)) :
    ((∃ out, generateTokensElements b elems fmap = .ok out)
        ↔ ∀ e ∈ elems, (objGet fmap (effFontFamily e)).isSome) ∧
    (∀ out, generateTokensElements b elems fmap = .ok out →
        ∀ e ∈ elems, (objGet out (elementKey e)).isSome) ∧
    (∀ msg, generateTokensElements b elems fmap = .error msg →
        ∃ fam, objGet fmap fam = none ∧ msg = unknownFamilyMsg fam (fmap.map Prod.fst)) ∧
    (∀ e : Element, e.fontFamily = none → effFontFamily e = "sans") ∧
    (∀ (e : Element) (fm : FontMetrics), e.fontWeight = none →
        (mkTokenRecord b fm e).fontWeight = 400) ∧
    (∀ (e : Element) (fm : FontMetrics), e.fontStyle = none →
        (mkTokenRecord b fm e).fontStyle = "normal") ∧
    (∀ (e : Element) (fm : FontMetrics), e.spaceAfter = none →
        (mkTokenRecord b fm e).spaceAfterRem = 4 * b) := by
  refine ⟨genElements_ok_iff b fmap elems [],
    fun out h => (genElements_ok_keys b fmap elems [] out h).2,
    genElements_error_shape b fmap elems [],
    fun e he => ?_, fun e fm he => ?_, fun e fm he => ?_, fun e fm he => ?_⟩
  · simp [effFontFamily, jsOrStr, he]
  · simp [mkTokenRecord, jsOrNum, he]
  · simp [mkTokenRecord, jsOrStr, he]
  · simp [mkTokenRecord, jsOrNum, he]

/-- A concrete configured element: an `h1` with every optional field
absent. -/
def sampleElement : Element where
  identifier := some "h1"
  classname := none
  tag := none
  fontSize := 1
  lineHeight := 3
  spaceAfter := none
  fontFamily := none
  fontWeight := none
  fontStyle := none

/-- Witness for `generateTokens_unknown_family` at a concrete
configuration. -/
theorem generateTokens_unknown_family_witness :
    (objGet (objSet ([] : List (String × TokenRecord)) (elementKey sampleElement)
        (mkTokenRecord (1 / 2) exampleMetrics sampleElement)) (elementKey sampleElement)).isSome
      = true :=
  (generateTokens_unknown_family (1 / 2) [sampleElement] [("sans", exampleMetrics)]).2.1
    _ rfl sampleElement (by simp)

/-- C10.  Records are keyed by `cleanClassname` of
`identifier || classname || tag || 'element'`; `cleanClassname` maps a
missing argument to "unknown", strips one leading dot and replaces the
characters outside `[a-zA-Z0-9_-]` with underscores; two elements with
the same cleaned key yield one single entry holding the later element's
record. -/
theorem generateTokens_key_collision (b : ℚ) (fmap : List (String × FontMetrics))
    (e1 e2 : Element) (fm1 fm2 : FontMetrics)
    (hk : elementKey e1 = elementKey e2)
    (h1 : objGet fmap (effFontFamily e1) = some fm1)
    (h2 : objGet fmap (effFontFamily e2) = some fm2) :
    generateTokensElements b [e1, e2] fmap
        = .ok [(elementKey e2, mkTokenRecord b fm2 e2)] ∧
    cleanClassname none = "unknown" ∧
    cleanClassname (some ".foo.bar") = "foo_bar" ∧
    elementKey e1 = cleanClassname (some (jsOrStr e1.identifier
        (jsOrStr e1.classname (jsOrStr e1.tag "element")))) := by
  refine ⟨?_, rfl, by rfl, rfl⟩
  unfold generateTokensElements
  simp only [genElements, h1, h2]
  have hset1 : objSet ([] : List (String × TokenRecord)) (elementKey e1)
      (mkTokenRecord b fm1 e1) = [(elementKey e1, mkTokenRecord b fm1 e1)] := by
    simp [objSet]
  rw [hset1, hk]
  have hset2 : objSet [(elementKey e2, mkTokenRecord b fm1 e1)] (elementKey e2)
      (mkTokenRecord b fm2 e2) = [(elementKey e2, mkTokenRecord b fm2 e2)] := by
    simp [objSet]
  rw [hset2]

/-- A concrete element whose identifier cleans to `foo_bar`. -/
def colliderA : Element where
  identifier := some "foo.bar"
  classname := none
  tag := none
  fontSize := 1
  lineHeight := 3
  spaceAfter := none
  fontFamily := none
  fontWeight := none
  fontStyle := none

/-- A second concrete element whose identifier also cleans to `foo_bar`. -/
def colliderB : Element where
  identifier := some ".foo_bar"
  classname := none
  tag := none
  fontSize := 2
  lineHeight := 5
  spaceAfter := none
  fontFamily := none
  fontWeight := none
  fontStyle := none

/-- Witness for `generateTokens_key_collision`: the two colliding elements
produce a single entry carrying the later record. -/
theorem generateTokens_key_collision_witness :
    generateTokensElements (1 / 2) [colliderA, colliderB] [("sans", exampleMetrics)]
        = .ok [(elementKey colliderB, mkTokenRecord (1 / 2) exampleMetrics colliderB)] ∧
    cleanClassname none = "unknown" ∧
    cleanClassname (some ".foo.bar") = "foo_bar" ∧
    elementKey colliderA = cleanClassname (some (jsOrStr colliderA.identifier
        (jsOrStr colliderA.classname (jsOrStr colliderA.tag "element")))) :=
  generateTokens_key_collision (1 / 2) [("sans", exampleMetrics)] colliderA colliderB
    exampleMetrics exampleMetrics (by rfl) (by rfl) (by rfl)

/-- C8.  The computation only sees `|descent|`, so flipping the sign of the
descent metric leaves the returned nudge unchanged. -/
theorem calculateNudgeRem_descent_sign_invariant (m : FontMetrics) (f L b : ℚ) :
    calculateNudgeRem ⟨m.ascent, -m.descent, m.lineGap, m.unitsPerEm⟩ f L b
      = calculateNudgeRem m f L b := by
  simp [calculateNudgeRem, wrappedNudgeRem, compensatedNudgeRem, nudgeRem, baselineOffsetRem,
    leadingRem, contentAreaRem, ascenderRem, descenderRem, lineGapRem, abs_neg]

/-!
Structured name-table resolution: the first extraction method of
`extractFontName` in `src/fontkit-parser.js` (lines 14-42).  The name
table is an array of `{nameID, platformID, value}` records; name IDs are
tried in the priority order `[1, 4, 6, 16]` of line 19, and for each name
ID the platforms Windows(3), Unicode(0), Macintosh(1) in that order.
-/

/-- One record of a structured `name` table. -/
structure NameRecord where
  nameID : ℕ
  platformID : ℕ
  value : Option String
deriving DecidableEq, Repr

/-- Lines 23-37: `names.find(n => n.nameID === nameID && n.platformID === pid)`
followed by the truthiness check on `.value`. -/
def platformLookup (names : List NameRecord) (nid pid : ℕ) : Option String :=
  match names.find? fun n => n.nameID == nid && n.platformID == pid with
  | some e =>
    match e.value with
    | some v => if v = "" then none else some v
    | none => none
  | none => none

/-- Lines 22-38: for one name ID, try Windows(3), then Unicode(0), then
Macintosh(1). -/
def tryNameIDAllPlatforms (names : List NameRecord) (nid : ℕ) : Option String :=
  match platformLookup names nid 3 with
  | some v => some v
  | none =>
    match platformLookup names nid 0 with
    | some v => some v
    | none => platformLookup names nid 1

/-- Line 19: `const priorityNameIDs = [1, 4, 6, 16]`. -/
def methodOnePriorityNameIDs : List ℕ := [1, 4, 6, 16]

/-- The outer loop of lines 21-39. -/
def firstNameByPriority (names : List NameRecord) : List ℕ → Option String
  | [] => none
  | nid :: rest =>
    match tryNameIDAllPlatforms names nid with
    | some v => some v
    | none => firstNameByPriority names rest

/-- The structured-array name resolver of `src/fontkit-parser.js`. -/
def extractNameMethodOne (names : List NameRecord) : Option String :=
  firstNameByPriority names methodOnePriorityNameIDs

/-- C2 counterexample.  A name table holding a valid Windows-platform
entry for name-ID 16 and a valid Macintosh-platform entry for name-ID 1:
the resolver returns the name-ID 1 entry, not the name-ID 16 entry,
because the code tries name IDs in the order `[1, 4, 6, 16]`. -/
theorem extractNameMethodOne_counterexample :
    extractNameMethodOne [⟨16, 3, some "Typo"⟩, ⟨1, 1, some "Fam"⟩] = some "Fam" ∧
      extractNameMethodOne [⟨16, 3, some "Typo"⟩, ⟨1, 1, some "Fam"⟩] ≠ some "Typo" := by
  constructor
  · rfl
  · decide

/-- C2 (amended).  The structured-array resolver tries name IDs in the
priority order `[1, 4, 6, 16]`, each across platforms Windows(3),
Unicode(0), Macintosh(1): for every name table consisting of a valid
Windows entry for name-ID 16 and a valid Macintosh entry for name-ID 1
(in either order), the name-ID 1 entry is returned. -/
theorem extractNameMethodOne_family_first (v16 v1 : String)
    (h16 : v16 ≠ "") (h1 : v1 ≠ "") :
    extractNameMethodOne [⟨16, 3, some v16⟩, ⟨1, 1, some v1⟩] = some v1 ∧
      extractNameMethodOne [⟨1, 1, some v1⟩, ⟨16, 3, some v16⟩] = some v1 := by
  constructor <;>
    simp [extractNameMethodOne, methodOnePriorityNameIDs, firstNameByPriority,
      tryNameIDAllPlatforms, platformLookup, List.find?, h1, h16]

/-- Witness for `extractNameMethodOne_family_first` at concrete values. -/
theorem extractNameMethodOne_family_first_witness :
    extractNameMethodOne [⟨16, 3, some "Typographic"⟩, ⟨1, 1, some "Family"⟩]
        = some "Family" ∧
      extractNameMethodOne [⟨1, 1, some "Family"⟩, ⟨16, 3, some "Typographic"⟩]
        = some "Family" :=
  extractNameMethodOne_family_first "Typographic" "Family" (by decide) (by decide)

/-!
Robust font-name extraction: the font-name extractor module
(`font-name-extractor.js`).  Its regular expressions are modelled by
dedicated matching functions over character lists; all end-anchored
patterns are parsed on the reversed character list.  JavaScript `\s` is
modelled by the ASCII whitespace characters, `\w` by `[A-Za-z0-9_]`,
`.` excludes the line terminators.
-/

/-- ASCII whitespace, the effective content of `\s` for ASCII input. -/
def isWsChar (c : Char) : Bool :=
  c = ' ' || c = '\t' || c = '\n' || c = '\r' || c = '\x0b' || c = '\x0c'

/-- JavaScript `\w`: `[A-Za-z0-9_]`. -/
def isWordChar (c : Char) : Bool := c.isAlphanum || c = '_'

/-- JavaScript `String.prototype.trim` (ASCII fragment). -/
def jsTrim (s : String) : String :=
  String.mk (((s.data.dropWhile isWsChar).reverse.dropWhile isWsChar).reverse)

/-- Case-insensitive literal matcher: consume `pat` from the front of the
list (both sides lowercased), returning the rest. -/
def chompFwdCI : List Char → List Char → Option (List Char)
  | [], r => some r
  | _ :: _, [] => none
  | c :: cs, h :: hs => if h.toLower = c.toLower then chompFwdCI cs hs else none

/-- Case-sensitive literal matcher. -/
def chompFwdCS : List Char → List Char → Option (List Char)
  | [], r => some r
  | _ :: _, [] => none
  | c :: cs, h :: hs => if h = c then chompFwdCS cs hs else none

/-- Case-insensitive substring test (`String.prototype.includes` after
`toLowerCase`, and the `/i`-flagged unanchored literal patterns). -/
def hasSubCIAux (pat : List Char) : List Char → Bool
  | [] => (chompFwdCI pat []).isSome
  | c :: cs => (chompFwdCI pat (c :: cs)).isSome || hasSubCIAux pat cs

def hasSubCI (pat s : String) : Bool := hasSubCIAux pat.data s.data

/-- A word boundary holds against a neighbouring character that is absent
or not a word character. -/
def boundaryOk : Option Char → Bool
  | none => true
  | some c => !(isWordChar c)

/-- One position of the `\bkw\b` (case-insensitive) search: `prev` is the
character before the position in the original string. -/
def kwHere (kw : List Char) (prev : Option Char) (l : List Char) : Bool :=
  boundaryOk prev &&
    (match chompFwdCI kw l with
     | some rest => boundaryOk rest.head?
     | none => false)

def kwSearchAux (kw : List Char) : Option Char → List Char → Bool
  | prev, [] => kwHere kw prev []
  | prev, c :: cs => kwHere kw prev (c :: cs) || kwSearchAux kw (some c) cs

/-- Word-bounded case-insensitive keyword test (`/\bkw\b/i`). -/
def hasWordCI (kw s : String) : Bool := kwSearchAux kw.data none s.data

/-- Line 156: the weight/style keyword alternation; note that it contains
`regular` itself but not `normal`. -/
def weightStyleKeywords : List String :=
  ["thin", "light", "regular", "medium", "semibold", "bold", "heavy", "black",
    "ultra", "extra", "italic", "oblique"]

/-- Line 156: `/\b(thin|light|regular|medium|semibold|bold|heavy|black|ultra|extra|italic|oblique)\b/i.test(cleaned)`. -/
def hasWeightStyle (s : String) : Bool := weightStyleKeywords.any fun k => hasWordCI k s

/-! Matchers for the end-anchored cleanup patterns.  Each matcher works on
the reversed character list and returns the reversed remainder on a
match. -/

/-- Strip trailing whitespace of the reversed view. -/
def dropWsR (r : List Char) : List Char := r.dropWhile isWsChar

/-- Consume at least one trailing digit (reversed view). -/
def chompDigitsR (r : List Char) : Option (List Char) :=
  match r with
  | c :: _ => if c.isDigit then some (r.dropWhile Char.isDigit) else none
  | [] => none

/-- Hexadecimal character class `[a-f0-9]` with the `/i` flag. -/
def isHexChar (c : Char) : Bool :=
  c.isDigit || (97 ≤ c.toLower.toNat && c.toLower.toNat ≤ 102)

/-- Consume at least one trailing hex character (reversed view). -/
def chompHexR (r : List Char) : Option (List Char) :=
  match r with
  | c :: _ => if isHexChar c then some (r.dropWhile isHexChar) else none
  | [] => none

/-- Apply an end-anchored matcher as a replacement with the empty string
(or with the matcher-returned `$1` prefix). -/
def stripEnd (f : List Char → Option (List Char)) (s : String) : String :=
  match f s.data.reverse with
  | some rest => String.mk rest.reverse
  | none => s

/-- Matcher for `/\s*LIT$/i`. -/
def matchWsLit (lit : String) (r : List Char) : Option (List Char) :=
  (chompFwdCI lit.data.reverse r).map dropWsR

/-- Matcher for `/LIT$/i` (no leading whitespace in the pattern). -/
def matchLit (lit : String) (r : List Char) : Option (List Char) :=
  chompFwdCI lit.data.reverse r

/-- Matcher for `/\s*Web\s*Font$/i`. -/
def matchWebFont (r : List Char) : Option (List Char) :=
  match chompFwdCI ("Font".data.reverse) r with
  | none => none
  | some r1 =>
    match chompFwdCI ("Web".data.reverse) (dropWsR r1) with
    | none => none
    | some r2 => some (dropWsR r2)

/-- Matcher for `/\s*\d+\s*$/`. -/
def matchTrailingNumber (r : List Char) : Option (List Char) :=
  (chompDigitsR (dropWsR r)).map dropWsR

/-- Consume a leading `v`/`V` (reversed view reaches it last). -/
def chompVee : List Char → Option (List Char)
  | c :: cs => if c.toLower = 'v' then some cs else none
  | [] => none

/-- After the final digit run of `/v\d+(\.\d+)*/` was consumed, consume the
remaining `('.' digits)*` groups and then the `v` (reversed view; fuel is
an upper bound on the consumed length). -/
def matchVersionTail : ℕ → List Char → Option (List Char)
  | 0, _ => none
  | fuel + 1, r =>
    match r with
    | '.' :: rest =>
      match chompDigitsR rest with
      | some r2 => matchVersionTail fuel r2
      | none => chompVee r
    | _ => chompVee r

/-- Matcher for `/\s*v\d+(\.\d+)*\s*$/i`. -/
def matchVNumber (r : List Char) : Option (List Char) :=
  match chompDigitsR (dropWsR r) with
  | some r1 => (matchVersionTail (r1.length + 1) r1).map dropWsR
  | none => none

/-- Matcher for `/\s*version\s*\d+\s*$/i`. -/
def matchVersionNumber (r : List Char) : Option (List Char) :=
  match chompDigitsR (dropWsR r) with
  | some r1 => (chompFwdCI ("version".data.reverse) (dropWsR r1)).map dropWsR
  | none => none

/-- Matcher for `/\s*git-[a-f0-9]+\s*$/i`. -/
def matchGitHash (r : List Char) : Option (List Char) :=
  match chompHexR (dropWsR r) with
  | some r1 => (chompFwdCI ("git-".data.reverse) r1).map dropWsR
  | none => none

/-- Reversed scan between the closing and the opening bracket: collect
until the closing character reappears, remembering the remainder past the
most recent opening bracket; the last one remembered corresponds to the
leftmost admissible opening bracket of the original string. -/
def bracketScan (op cl : Char) : List Char → Option (List Char) → Option (List Char)
  | [], best => best
  | c :: cs, best =>
    if c = cl then best
    else if c = op then bracketScan op cl cs (some cs)
    else bracketScan op cl cs best

/-- Matcher for `/\s*OP[^CL]*CL\s*$/` (the three bracketed-annotation
patterns). -/
def matchBracketed (op cl : Char) (r : List Char) : Option (List Char) :=
  match dropWsR r with
  | c :: rest => if c = cl then (bracketScan op cl rest none).map dropWsR else none
  | [] => none

/-- The lazy `^(.+?)` prefix of the conditional patterns: the reversed
prefix keeps at least one character, surplus whitespace goes to the
following `\s*`, and the dot excludes line terminators. -/
def lazyPre (pre0 : List Char) : Option (List Char) :=
  let pre := dropWsR pre0
  let pre := if pre.isEmpty then
    match pre0 with
    | [] => []
    | _ => [pre0.getLastD ' ']
  else pre
  if !pre.isEmpty && pre.all (fun c => !(c = '\n' || c = '\r')) then some pre else none

/-- Matcher for `/^(.+?)\s*-\s*W$/i`, replacement `$1`. -/
def matchDashWord (w : String) (r : List Char) : Option (List Char) :=
  match chompFwdCI (w.data.reverse) r with
  | none => none
  | some r1 =>
    match dropWsR r1 with
    | '-' :: r2 => lazyPre r2
    | _ => none

/-- Matcher for `/^(.+?)\s*W$/i`, replacement `$1`. -/
def matchWordSuffix (w : String) (r : List Char) : Option (List Char) :=
  match chompFwdCI (w.data.reverse) r with
  | none => none
  | some r1 => lazyPre r1

/-- The global whitespace collapse `/\s+/g → " "`. -/
def collapseWsAux : Bool → List Char → List Char
  | _, [] => []
  | prevWs, c :: cs =>
    if isWsChar c then
      if prevWs then collapseWsAux true cs else ' ' :: collapseWsAux true cs
    else c :: collapseWsAux false cs

def collapseWs (s : String) : String := String.mk (collapseWsAux false s.data)

/-- Lines 24-37: `FONT_SPECIFIC_CLEANUP`, applied entry by entry when the
current candidate contains the family substring (case-insensitive). -/
def fontSpecificCleanup (s : String) : String :=
  let s1 := if hasSubCI "questa regular" s then
    stripEnd (matchWsLit "Regular") (stripEnd (matchWsLit "Webfont") s) else s
  let s2 := if hasSubCI "inter" s1 then
    stripEnd (matchWsLit "VF") (stripEnd (matchWsLit "Variable") s1) else s1
  if hasSubCI "ibm plex" s2 then
    stripEnd (matchWsLit "Variable") (stripEnd (matchWsLit "Var") s2) else s2

/-- Lines 69-99 and 158-165: the `CLEANUP_PATTERNS` array applied in
order; the four `Regular`/`Normal` patterns carry the
`noOtherWeightStyle` condition and are skipped when the weight/style
keyword flag is set. -/
def cleanupApply (hasWS : Bool) (s0 : String) : String :=
  let s1 := stripEnd (matchWsLit "-webfont") s0
  let s2 := stripEnd (matchLit "-webfont") s1
  let s3 := stripEnd (matchWsLit "webfont") s2
  let s4 := stripEnd matchWebFont s3
  let s5 := stripEnd (matchWsLit "VF") s4
  let s6 := stripEnd (matchWsLit "Variable") s5
  let s7 := stripEnd (matchWsLit "Var") s6
  let s8 := stripEnd matchTrailingNumber s7
  let s9 := stripEnd matchVNumber s8
  let s10 := stripEnd matchVersionNumber s9
  let s11 := stripEnd matchGitHash s10
  let s12 := stripEnd (matchBracketed '(' ')') s11
  let s13 := stripEnd (matchBracketed '[' ']') s12
  let s14 := stripEnd (matchBracketed '\x7b' '\x7d') s13
  let s15 := if hasWS then s14 else stripEnd (matchDashWord "Regular") s14
  let s16 := if hasWS then s15 else stripEnd (matchWordSuffix "Regular") s15
  let s17 := if hasWS then s16 else stripEnd (matchDashWord "Normal") s16
  let s18 := if hasWS then s17 else stripEnd (matchWordSuffix "Normal") s17
  collapseWs s18

/-- Lines 139-168: `cleanupFontName` (an absent or non-string argument,
like the empty string, returns the empty string). -/
def cleanupFontName (name : String) : String :=
  if name = "" then ""
  else
    let cleaned := fontSpecificCleanup (jsTrim name)
    jsTrim (cleanupApply (hasWeightStyle cleaned) cleaned)

/-! The `INVALID_NAME_PATTERNS` list (lines 42-63), one decidable test per
pattern, combined in source order. -/

/-- Position matcher for `/for\s+use\s+only/i`. -/
def matchForUseOnlyAt (l : List Char) : Bool :=
  match chompFwdCI "for".data l with
  | some r1 =>
    match r1 with
    | c :: _ =>
      if isWsChar c then
        match chompFwdCI "use".data (r1.dropWhile isWsChar) with
        | some r2 =>
          match r2 with
          | d :: _ =>
            if isWsChar d then (chompFwdCI "only".data (r2.dropWhile isWsChar)).isSome
            else false
          | [] => false
        | none => false
      else false
    | [] => false
  | none => false

/-- Position matcher for `/version\s+\d/i`. -/
def matchVersionDigitAt (l : List Char) : Bool :=
  match chompFwdCI "version".data l with
  | some r1 =>
    match r1 with
    | c :: _ =>
      if isWsChar c then
        match r1.dropWhile isWsChar with
        | d :: _ => d.isDigit
        | [] => false
      else false
    | [] => false
  | none => false

/-- Consume exactly `n` digits. -/
def takeExactDigits : ℕ → List Char → Option (List Char)
  | 0, l => some l
  | n + 1, c :: cs => if c.isDigit then takeExactDigits n cs else none
  | _ + 1, [] => none

/-- Position matcher for `/\d{4}-\d{2}-\d{2}/`. -/
def matchDateAt (l : List Char) : Bool :=
  match takeExactDigits 4 l with
  | some ('-' :: r2) =>
    match takeExactDigits 2 r2 with
    | some ('-' :: r4) => (takeExactDigits 2 r4).isSome
    | _ => false
  | _ => false

/-- Position matcher for `/test\s*font/i`. -/
def matchTestFontAt (l : List Char) : Bool :=
  match chompFwdCI "test".data l with
  | some r1 => (chompFwdCI "font".data (r1.dropWhile isWsChar)).isSome
  | none => false

/-- Try a position matcher at every position. -/
def scanAny (f : List Char → Bool) : List Char → Bool
  | [] => f []
  | c :: cs => f (c :: cs) || scanAny f cs

/-- Case-insensitive end-anchored literal test (`/LIT$/i`). -/
def endsWithCI (suf s : String) : Bool := (chompFwdCI suf.data.reverse s.data.reverse).isSome

/-- Anchored test `/^W\s*$/i`. -/
def isWordThenWs (w : String) (t : List Char) : Bool :=
  match chompFwdCI w.data t with
  | some r => r.all isWsChar
  | none => false

/-- The disjunction of the `INVALID_NAME_PATTERNS` tests, in source
order, applied to the trimmed candidate. -/
def matchesInvalidPattern (t : String) : Bool :=
  (!t.data.isEmpty && t.data.all (· = '.')) ||
  t.data.all isWsChar ||
  (match t.data with
   | [c] => !(c = '\n' || c = '\r')
   | _ => false) ||
  hasSubCI "ilovetypography" t ||
  scanAny matchForUseOnlyAt t.data ||
  scanAny matchVersionDigitAt t.data ||
  hasSubCI "git-" t ||
  scanAny matchDateAt t.data ||
  endsWithCI ".ttf" t || endsWithCI ".otf" t || endsWithCI ".woff" t || endsWithCI ".woff2" t ||
  scanAny matchTestFontAt t.data ||
  hasSubCI "sample" t ||
  hasSubCI "demo" t ||
  hasSubCI "placeholder" t ||
  hasSubCI "untitled" t ||
  isWordThenWs "font" t.data ||
  isWordThenWs "regular" t.data ||
  isWordThenWs "bold" t.data ||
  isWordThenWs "italic" t.data ||
  (!t.data.isEmpty && t.data.all Char.isDigit) ||
  t.data.any (fun c => c.toNat < 32 || 126 < c.toNat)

/-- Lines 106-131: `isValidFontName` (an absent or non-string argument,
like the empty string, is invalid). -/
def isValidFontName (name : String) : Bool :=
  if name = "" then false
  else
    let t := jsTrim name
    if matchesInvalidPattern t then false
    else if t.length < 2 then false
    else if !(t.data.any Char.isAlpha) then false
    else true

/-- C5 counterexample.  The candidate "Foo Regular" contains none of the
eleven "other" weight/style keywords named by the claim, yet its trailing
"Regular" is not stripped: the condition regex of the code also contains
`regular` itself, so a word-separated trailing "Regular" blocks its own
removal. -/
theorem cleanupFontName_regular_counterexample :
    cleanupFontName "Foo Regular" = "Foo Regular" ∧
      (["thin", "light", "medium", "semibold", "bold", "heavy", "black",
        "ultra", "extra", "italic", "oblique"].all
          fun k => !(hasWordCI k "Foo Regular")) = true := by
  constructor
  · rfl
  · decide

/-- C5 (amended).  The conditional `Regular`/`Normal` stripping is
governed by the keyword alternation that includes `regular` itself (and
not `normal`): a word-separated trailing "Regular" is preserved, an
unseparated one ("FooRegular") is stripped, a trailing "Normal" is
stripped when no keyword occurs, and a "Bold Italic" candidate keeps its
tokens. -/
theorem cleanupFontName_conditional_strip (s : String) :
    (hasWeightStyle s = (weightStyleKeywords.any fun k => hasWordCI k s)) ∧
    cleanupFontName "Foo Normal" = "Foo" ∧
    cleanupFontName "FooRegular" = "Foo" ∧
    cleanupFontName "Foo Regular" = "Foo Regular" ∧
    cleanupFontName "Cabin Bold Italic" = "Cabin Bold Italic" := by
  refine ⟨rfl, ?_, ?_, ?_, ?_⟩ <;> rfl

/-!
The duck-typed name-table values of the extractor (lines 217-301): a
property value is a string, a language-keyed object (fields in insertion
order), or some other value (numbers, booleans); `vother` carries its
truthiness.
-/

inductive NameVal where
  | vstr (s : String)
  | vobj (fields : List (String × NameVal))
  | vother (truthy : Bool)

/-- JavaScript truthiness of a property value. -/
def nvTruthy : NameVal → Bool
  | .vstr s => !(s == "")
  | .vobj _ => true
  | .vother b => b

/-- The four name-table properties probed by the extractor, in the order
of lines 223-228 (name IDs 16, 1, 4, 6). -/
structure NameTable where
  preferredFamily : Option NameVal
  fontFamily : Option NameVal
  fullName : Option NameVal
  postScriptName : Option NameVal

/-- Lines 234-245: pick the `name` candidate out of one property value:
a truthy `en` field first, a plain string next, otherwise the first value
of the object. -/
def candidateName : NameVal → Option NameVal
  | .vobj fields =>
    match objGet fields "en" with
    | some en => if nvTruthy en then some en else fields.head?.map Prod.snd
    | none => fields.head?.map Prod.snd
  | .vstr s => some (.vstr s)
  | .vother _ => none

/-- Line 247: `if (name && typeof name === 'string')`. -/
def nameAsString : Option NameVal → Option String
  | some (.vstr s) => if s = "" then none else some s
  | _ => none

/-- Lines 230-253: handle one property of the loop: the truthiness guard,
the candidate pick, cleanup and validation. -/
def tryProp (v : Option NameVal) : Option String :=
  match v with
  | none => none
  | some v =>
    if nvTruthy v then
      match nameAsString (candidateName v) with
      | some s =>
        if isValidFontName (cleanupFontName s) then some (cleanupFontName s) else none
      | none => none
    else none

/-- Lines 217-257: `extractFontNameFromNameTable` (the guard of line 218
is the `none` case). -/
def extractFontNameFromNameTable (nt : Option NameTable) : Option String :=
  match nt with
  | none => none
  | some t =>
    match tryProp t.preferredFamily with
    | some n => some n
    | none =>
      match tryProp t.fontFamily with
      | some n => some n
      | none =>
        match tryProp t.fullName with
        | some n => some n
        | none => tryProp t.postScriptName

/-- Lines 264-301: `extractFontNameFromOpenType`; the guard
`!otFont || !otFont.names` collapses to the `none` case, the body walks
the same properties the same way. -/
def extractFontNameFromOpenType (otNames : Option NameTable) : Option String :=
  match otNames with
  | none => none
  | some t =>
    match tryProp t.preferredFamily with
    | some n => some n
    | none =>
      match tryProp t.fontFamily with
      | some n => some n
      | none =>
        match tryProp t.fullName with
        | some n => some n
        | none => tryProp t.postScriptName

/-! Node `path` helpers (external library), modelled for POSIX paths
without trailing slashes. -/

/-- `path.basename(p)`: the part after the last slash. -/
def pathBasename (p : String) : String :=
  String.mk (p.data.reverse.takeWhile (· ≠ '/')).reverse

/-- `path.extname(p)`: from the last dot of the basename, empty when
there is no dot or the only dot leads the basename. -/
def pathExtname (p : String) : String :=
  let b := (pathBasename p).data
  let after := b.reverse.takeWhile (· ≠ '.')
  if after.length = b.length then ""
  else if b.length - after.length - 1 = 0 then ""
  else String.mk ('.' :: after.reverse)

/-- `path.basename(p, ext)`: as `basename`, with a matching proper suffix
`ext` removed. -/
def pathBasenameNoExt (p ext : String) : String :=
  let b := pathBasename p
  if ext ≠ "" && b ≠ ext && (chompFwdCS ext.data.reverse b.data.reverse).isSome then
    String.mk (b.data.reverse.drop ext.data.length).reverse
  else b

/-- `path.dirname(p)`. -/
def pathDirname (p : String) : String :=
  match p.data.reverse.dropWhile (· ≠ '/') with
  | [] => "."
  | [_] => "/"
  | _ :: rest => String.mk rest.reverse

/-- Line 182: strip one leading digit run followed by a dash (the first
`replace` of `extractFontNameFromPath`). -/
def stripLeadingNumDash (s : String) : String :=
  let d := s.data.takeWhile Char.isDigit
  if d.isEmpty then s
  else
    match s.data.drop d.length with
    | '-' :: rest => String.mk rest
    | _ => s

/-- The `replace(/[-_]/g, ' ')` step. -/
def replaceSeps (s : String) : String :=
  String.mk (s.data.map fun c => if c = '-' || c = '_' then ' ' else c)

/-- Global word-bounded case-insensitive removal (`/\bW\b/gi → ''`):
non-overlapping matches against the original string, scanning left to
right.  The fuel is an upper bound on the number of steps (one character
or one match per step). -/
def removeWordCIAux (w : List Char) : ℕ → Option Char → List Char → List Char
  | 0, _, l => l
  | _ + 1, _, [] => []
  | fuel + 1, prev, c :: cs =>
    if boundaryOk prev then
      match chompFwdCI w (c :: cs) with
      | some rest =>
        if boundaryOk rest.head? then
          removeWordCIAux w fuel ((c :: cs).take w.length).getLast? rest
        else c :: removeWordCIAux w fuel (some c) cs
      | none => c :: removeWordCIAux w fuel (some c) cs
    else c :: removeWordCIAux w fuel (some c) cs

/-- The `replace(/\bwebfont\b/gi, '')` step of line 184. -/
def removeWebfontWords (s : String) : String :=
  String.mk (removeWordCIAux "webfont".data (s.data.length + 1) none s.data)

/-- Global removal for `/\bfonts?\b/gi` (line 198): the optional `s` is
taken when it keeps the trailing word boundary. -/
def removeFontWordsAux : ℕ → Option Char → List Char → List Char
  | 0, _, l => l
  | _ + 1, _, [] => []
  | fuel + 1, prev, c :: cs =>
    if boundaryOk prev then
      match chompFwdCI "font".data (c :: cs) with
      | some (r :: rs) =>
        if r.toLower = 's' then
          if boundaryOk rs.head? then removeFontWordsAux fuel (some r) rs
          else c :: removeFontWordsAux fuel (some c) cs
        else
          if boundaryOk (some r) then
            removeFontWordsAux fuel ((c :: cs).take 4).getLast? (r :: rs)
          else c :: removeFontWordsAux fuel (some c) cs
      | some [] => []
      | none => c :: removeFontWordsAux fuel (some c) cs
    else c :: removeFontWordsAux fuel (some c) cs

def removeFontWords (s : String) : String :=
  String.mk (removeFontWordsAux (s.data.length + 1) none s.data)

/-- Lines 176-210: `extractFontNameFromPath`: clean the file name, fall
back to the parent directory name, validating each candidate. -/
def pathNameCandidate (fontPath : String) : String :=
  cleanupFontName (jsTrim (removeWebfontWords (replaceSeps
    (stripLeadingNumDash (pathBasenameNoExt fontPath (pathExtname fontPath))))))

def dirNameCandidate (fontPath : String) : String :=
  cleanupFontName (jsTrim (removeFontWords (replaceSeps
    (pathBasename (pathDirname fontPath)))))

def extractFontNameFromPath (fontPath : String) : Option String :=
  if isValidFontName (pathNameCandidate fontPath) then some (pathNameCandidate fontPath)
  else if isValidFontName (dirNameCandidate fontPath) then some (dirNameCandidate fontPath)
  else none

/-- Lines 310-336: `extractRobustFontName`: name table, then opentype.js
names, then the path, then the raw filename, then "Unknown Font".  (The
truthiness guards of lines 312 and 320 coincide with the `none` cases of
the extractors.) -/
def extractRobustFontName (fontPath : String) (nameTable otNames : Option NameTable) : String :=
  match extractFontNameFromNameTable nameTable with
  | some n => n
  | none =>
    match extractFontNameFromOpenType otNames with
    | some n => n
    | none =>
      match extractFontNameFromPath fontPath with
      | some n => n
      | none =>
        if jsTrim (replaceSeps (pathBasenameNoExt fontPath (pathExtname fontPath))) = "" then
          "Unknown Font"
        else jsTrim (replaceSeps (pathBasenameNoExt fontPath (pathExtname fontPath)))

theorem isValidFontName_ne_empty {s : String} (h : isValidFontName s = true) : s ≠ "" := by
  intro he
  subst he
  simp [isValidFontName] at h

theorem tryProp_valid {v : Option NameVal} {n : String} (h : tryProp v = some n) :
    isValidFontName n = true := by
  unfold tryProp at h
  split at h
  · exact absurd h (by simp)
  · split at h
    · split at h
      · split at h
        · obtain rfl : _ = n := Option.some.inj h
          assumption
        · exact absurd h (by simp)
      · exact absurd h (by simp)
    · exact absurd h (by simp)

theorem extractFontNameFromNameTable_valid {nt : Option NameTable} {n : String}
    (h : extractFontNameFromNameTable nt = some n) : isValidFontName n = true := by
  unfold extractFontNameFromNameTable at h
  split at h
  · exact absurd h (by simp)
  · split at h
    · exact tryProp_valid (by rw [← Option.some.inj h]; assumption)
    · split at h
      · exact tryProp_valid (by rw [← Option.some.inj h]; assumption)
      · split at h
        · exact tryProp_valid (by rw [← Option.some.inj h]; assumption)
        · exact tryProp_valid h

theorem extractFontNameFromOpenType_valid {nt : Option NameTable} {n : String}
    (h : extractFontNameFromOpenType nt = some n) : isValidFontName n = true := by
  unfold extractFontNameFromOpenType at h
  split at h
  · exact absurd h (by simp)
  · split at h
    · exact tryProp_valid (by rw [← Option.some.inj h]; assumption)
    · split at h
      · exact tryProp_valid (by rw [← Option.some.inj h]; assumption)
      · split at h
        · exact tryProp_valid (by rw [← Option.some.inj h]; assumption)
        · exact tryProp_valid h

theorem extractFontNameFromPath_valid {p : String} {n : String}
    (h : extractFontNameFromPath p = some n) : isValidFontName n = true := by
  revert h
  unfold extractFontNameFromPath
  generalize pathNameCandidate p = a
  generalize dirNameCandidate p = b
  by_cases hva : isValidFontName a = true
  · rw [if_pos hva]
    intro h
    injection h with h2
    rw [← h2]
    exact hva
  · rw [if_neg hva]
    by_cases hvb : isValidFontName b = true
    · rw [if_pos hvb]
      intro h
      injection h with h2
      rw [← h2]
      exact hvb
    · rw [if_neg hvb]
      intro h
      cases h

/-- C3 (amended).  The resolver is total and never returns the empty
string; every name obtained from a name table passes the
invalid-pattern validation; with nothing extractable at all it returns
the literal "Unknown Font".  (The last-resort filename fallback itself is
not validated, see the counterexample.) -/
theorem extractRobustFontName_spec (fontPath : String) (nt ot : Option NameTable)
    (n : String) (hn : extractFontNameFromNameTable nt = some n) :
    isValidFontName n = true ∧
    (∀ p : String, ∀ nt' ot' : Option NameTable, extractRobustFontName p nt' ot' ≠ "") ∧
    extractRobustFontName "-_.ttf" none none = "Unknown Font" := by
  refine ⟨extractFontNameFromNameTable_valid hn, ?_, by rfl⟩
  intro p nt' ot'
  unfold extractRobustFontName
  split
  · next _ h => exact isValidFontName_ne_empty (extractFontNameFromNameTable_valid h)
  · split
    · next _ h => exact isValidFontName_ne_empty (extractFontNameFromOpenType_valid h)
    · split
      · next _ h => exact isValidFontName_ne_empty (extractFontNameFromPath_valid h)
      · split
        · decide
        · next h => exact h

/-- A concrete name table holding a plain-string `preferredFamily`. -/
def interNameTable : NameTable where
  preferredFamily := some (.vstr "Inter")
  fontFamily := none
  fullName := none
  postScriptName := none

/-- Witness for `extractRobustFontName_spec` at a concrete name table. -/
theorem extractRobustFontName_spec_witness :
    isValidFontName "Inter" = true ∧
    (∀ p : String, ∀ nt' ot' : Option NameTable, extractRobustFontName p nt' ot' ≠ "") ∧
    extractRobustFontName "-_.ttf" none none = "Unknown Font" :=
  extractRobustFontName_spec "fonts/Inter-Regular.woff2" (some interNameTable) none
    "Inter" (by rfl)

/-- C3 counterexample.  With no name tables and the path "demo.ttf", every
validated source rejects its candidate (the filename matches the `demo`
invalid pattern), and the unvalidated last-resort fallback then returns
exactly that invalid string "demo". -/
theorem extractRobustFontName_invalid_counterexample :
    extractRobustFontName "demo.ttf" none none = "demo" ∧
      isValidFontName "demo" = false := by
  exact ⟨rfl, rfl⟩

end BaselineNudge
